import Mathlib

/-!
Shallow embedding of `src/udm_import.py` (a CSV-driven bulk import tool for
UDM directory objects) together with proofs about its observable behaviour.

The tool has four parts, each embedded below close to the source text:
  * `CsvReader` : encoding detection (`get_encoding`), dialect sniffing
    (`get_dialect`) and row normalisation (`CsvReader.read`'s dict
    comprehension over `csv.DictReader` rows);
  * `UdmImport.check_preconditions` : header validation per action;
  * the row executor `UdmImport.create` / `modify` / `remove` / `get_obj`,
    with the external directory-service API modelled as a list of objects;
  * the run controller `UdmImport.do_import`, which drives the row loop,
    counts errors and fixes the process exit status.

External collaborators (the `univention.udm` API, `python3-magic`, the
`csv` module's sniffer and parser, the `codecs` decoders) are not part of
the repository; they are modelled at their interface boundary: the sniffer
and parser are parameters, the heuristic encoding report is a parameter,
and the directory service is a list of objects with lookup by locator or
identifying property.
-/

namespace UdmImportModel

/-- A parsed CSV row: an association list from (stripped) column name to
(stripped) cell value, mirroring the Python `dict` yielded by
`CsvReader.read`.  Python dict keys are unique and iteration order is the
header order, so an association list is a faithful image. -/
abbrev Row : Type := List (String × String)

/-- `k in row` / `row[k]` of a Python dict, as association-list lookup. -/
def rowLookup (row : Row) (k : String) : Option String :=
  List.lookup k row

/-- `row.keys()` of a Python dict (iteration order = header order). -/
def rowKeys (row : Row) : List String :=
  row.map Prod.fst

/-- The action argument of the CLI: one of `create`, `modify`, `remove`
(line 84 of the source restricts the CLI argument to these three). -/
inductive Action
  | create
  | modify
  | remove
deriving DecidableEq, Repr

/-- A directory object as seen through the `univention.udm` API surface the
script uses: its `dn` locator and its property bag `props` (an association
list from property name to value).  The structural attributes other than
`dn` (options, policies, position, superordinate) play no role in the
claims about resolution and deletion and are omitted from the model. -/
structure UdmObject where
  dn : String
  props : List (String × String)
deriving DecidableEq, Repr

/-- The external directory service: the collection of existing objects of
the target type.  Lookups below model `mod.get` and `mod.get_by_id`. -/
abbrev Directory : Type := List UdmObject

/-- `mod.get(dn)`: resolve by record locator; `none` models the API raising
`NoObject` when no object with that dn exists. -/
def dirGet (d : Directory) (dn : String) : Option UdmObject :=
  d.find? (fun o => o.dn == dn)

/-- `mod.get_by_id(value)`: resolve by the identifying property's value;
`none` models `NoObject`. -/
def dirGetById (d : Directory) (idProp v : String) : Option UdmObject :=
  d.find? (fun o => rowLookup o.props idProp == some v)

/-- `obj.delete()` as seen by the directory: the object with the given dn
is no longer present afterwards. -/
def dirDelete (d : Directory) (dn : String) : Directory :=
  d.filter (fun o => o.dn != dn)

/-- Errors the resolution step `get_obj` can surface.  `noObject` embeds
the API's `NoObject` exception; `keyError` embeds the uncaught Python
`KeyError` from `row[id_prop]` when the row has neither key. -/
inductive GetErr
  | noObject
  | keyError
deriving DecidableEq, Repr

/-- `UdmImport.get_obj` (source lines 177--182): if the row has a `dn` key
the object is resolved by that locator (`mod.get(row['dn'])`), whatever the
value is; only when the `dn` key is absent is the identifying property used
(`mod.get_by_id(row[id_prop])`). -/
def get_obj (d : Directory) (idProp : String) (row : Row) : Except GetErr UdmObject :=
  match rowLookup row "dn" with
  | some v =>
    match dirGet d v with
    | some o => .ok o
    | none => .error .noObject
  | none =>
    match rowLookup row idProp with
    | none => .error .keyError
    | some v =>
      match dirGetById d idProp v with
      | some o => .ok o
      | none => .error .noObject

/-- `UdmImport.remove` (source lines 196--200): resolve the object, read its
dn, delete it, and return `obj.dn`.  The source binds `dn = obj.dn` before
the delete and then returns `obj.dn`; in the API the delete call removes
the directory entry and leaves the local object's `dn` attribute in place,
so the two coincide, as they do here on the immutable snapshot `obj`. -/
def remove (d : Directory) (idProp : String) (row : Row) :
    Except GetErr (String × Directory) :=
  match get_obj d idProp row with
  | .error e => .error e
  | .ok obj =>
    let d' := dirDelete d obj.dn
    .ok (obj.dn, d')

/-- `UdmImport.obj_non_props` (source line 102): the structural columns that
are set directly on the object instead of its property bag, and that are
excluded from the unknown-column check. -/
def obj_non_props : List String :=
  ["dn", "options", "policies", "position", "superordinate"]

/-- The facts about the loaded UDM module that `check_preconditions` reads:
`mod.meta.identifying_property`, and the keys of
`mod.new().props.__dict__` — with `none` modelling `mod.new()` raising
`NoSuperordinate` (the object type needs a superordinate context that a
bare `new()` cannot supply). -/
structure UdmModule where
  identifying_property : String
  new_props : Option (List String)

/-- The distinct `Log.fatal` outcomes of `UdmImport.check_preconditions`
(source lines 150--167).  `unknownColumns` carries the offending column
list, as the fatal message names it. -/
inductive PrecondError
  | invalidColumn
  | missingIdentifier (idProp : String)
  | unknownColumns (cols : List String)
deriving DecidableEq, Repr

/-- `UdmImport.check_preconditions` (source lines 150--167) on the first
row's key set.  Each `if` in the source ends in `Log.fatal` (which exits),
so the sequential checks are an else-if cascade; `none` means every check
passed.  The `NoSuperordinate` branch skips the unknown-column check. -/
def check_preconditions (action : Action) (mod : UdmModule) (header : List String) :
    Option PrecondError :=
  if action = .create ∧ "dn" ∈ header then
    some .invalidColumn
  else if (action = .modify ∨ action = .remove) ∧
      mod.identifying_property ∉ header ∧ "dn" ∉ header then
    some (.missingIdentifier mod.identifying_property)
  else if action = .create ∨ action = .modify then
    match mod.new_props with
    | none => none
    | some ps =>
      let known_props := obj_non_props ++ ps
      let unknown_columns := header.filter (fun key => key ∉ known_props)
      if unknown_columns = [] then none else some (.unknownColumns unknown_columns)
  else
    none

/-- The outcome of `exec_admin` on one row, at the granularity the row loop
distinguishes (source lines 133--141): success with a dn, one of the three
recoverable exceptions (`CreateError`, `ModifyError`, `NoObject`), or the
fatal `UnknownProperty`. -/
inductive RowOutcome
  | ok (dn : String)
  | createError
  | modifyError
  | noObject
  | unknownProperty
deriving DecidableEq, Repr

/-- Whether an outcome is one of the three recoverable per-row exceptions
caught at source line 136. -/
def RowOutcome.isRecoverable : RowOutcome → Bool
  | .createError => true
  | .modifyError => true
  | .noObject => true
  | _ => false

/-- Result of the row loop of `do_import` (source lines 131--141): either it
finished with an error count, or `Log.fatal` aborted it on an
`UnknownProperty`, after `attempted` rows had been executed (the failing
row included) with `errors` recoverable failures among them. -/
inductive LoopResult
  | finished (errors : Nat)
  | fatal (attempted : Nat) (errors : Nat)
deriving DecidableEq, Repr

/-- The row loop of `do_import` (source lines 131--141): execute each row in
file order; a recoverable failure increments `errors` and continues; an
`UnknownProperty` aborts immediately, leaving the remaining rows
unexecuted. -/
def processRows (exec : Row → RowOutcome) : List Row → Nat → Nat → LoopResult
  | [], _, errors => .finished errors
  | row :: rest, attempted, errors =>
    match exec row with
    | .ok _ => processRows exec rest (attempted + 1) errors
    | .createError => processRows exec rest (attempted + 1) (errors + 1)
    | .modifyError => processRows exec rest (attempted + 1) (errors + 1)
    | .noObject => processRows exec rest (attempted + 1) (errors + 1)
    | .unknownProperty => .fatal (attempted + 1) errors

/-- Number of rows of `rows` on which `exec` fails recoverably. -/
def countErrors (exec : Row → RowOutcome) (rows : List Row) : Nat :=
  (rows.filter (fun r => (exec r).isRecoverable)).length

/-- The observable outcome of `UdmImport.do_import` (source lines
115--148): the stage at which `Log.fatal` aborted the run, or normal
completion with the summary's two numbers (`len(rows) - errors` succeeded,
`errors` failed). -/
inductive ImportResult
  | fatalNoData
  | fatalPrecondition (e : PrecondError)
  | fatalRow (attempted : Nat) (errors : Nat)
  | completed (succeeded : Nat) (errors : Nat)
deriving DecidableEq, Repr

/-- The process exit status: `Log.fatal` exits 1; a completed run returns
`1 if errors else 0` (source line 148) through `ctx.exit`. -/
def ImportResult.exitCode : ImportResult → Nat
  | .completed _ errors => if errors = 0 then 0 else 1
  | _ => 1

/-- `rows[0].keys()`: the key set of the first parsed row (the stripped
header names, in header order). -/
def header (rows : List Row) : List String :=
  rowKeys (rows.headD [])

/-- `UdmImport.do_import` (source lines 115--148) after the rows have been
read: abort on an empty data set, run `check_preconditions` on the first
row's keys, then drive the row loop; `exec` is `exec_admin` specialised to
the chosen action.  On completion the summary numbers are
`len(rows) - errors` and `errors`. -/
def do_import (action : Action) (mod : UdmModule) (exec : Row → RowOutcome)
    (rows : List Row) : ImportResult :=
  if rows = [] then
    .fatalNoData
  else
    match check_preconditions action mod (header rows) with
    | some e => .fatalPrecondition e
    | none =>
      match processRows exec rows 0 0 with
      | .fatal attempted errors => .fatalRow attempted errors
      | .finished errors => .completed (rows.length - errors) errors

/-! ### CsvReader: encoding detection -/

/-- The UTF-8 byte-order-mark, the three bytes `b'\xef\xbb\xbf'` tested at
source line 292. -/
def bomBytes : List Nat := [0xef, 0xbb, 0xbf]

/-- `CsvReader.get_encoding` (source lines 253--295) after the heuristic
step: `detected` is the encoding name the `magic` heuristic reported for
the raw bytes `txt` (with the exception fallback to `"utf-8"` already
applied, source line 290).  Source lines 291--294: when the report is plain
`utf-8` and the bytes start with the BOM, the choice is overridden to
`utf-8-sig`. -/
def get_encoding (detected : String) (txt : List Nat) : String :=
  if detected = "utf-8" ∧ txt.take 3 = bomBytes then "utf-8-sig" else detected

/-- The byte stream the CSV parser consumes after decoding, at byte
granularity: the `codecs` `utf-8-sig` decoder consumes one leading BOM if
present and otherwise passes the bytes through; every other relevant
decoder passes the bytes through.  This embeds the stdlib decoder at the
interface the claims need (which bytes survive into parsed data). -/
def decodeStream (encoding : String) (txt : List Nat) : List Nat :=
  if encoding = "utf-8-sig" ∧ txt.take 3 = bomBytes then txt.drop 3 else txt

/-- ASCII whitespace at byte level, the bytes `str.strip` removes from the
ASCII range (space, tab, LF, CR, VT, FF). -/
def isSpaceByte (b : Nat) : Bool :=
  b == 0x20 || b == 0x09 || b == 0x0a || b == 0x0d || b == 0x0b || b == 0x0c

/-- `str.strip()` on a byte string (ASCII whitespace trimmed from both
ends).  The BOM bytes are not whitespace, so a BOM inside a field survives
the strip. -/
def stripBytes (l : List Nat) : List Nat :=
  ((l.dropWhile isSpaceByte).reverse.dropWhile isSpaceByte).reverse

/-- The bytes of the first line of a byte stream (up to the first LF,
exclusive). -/
def firstLineBytes (l : List Nat) : List Nat :=
  l.takeWhile (fun b => b != 0x0a)

/-- The first header name `csv.DictReader` produces from a decoded byte
stream, for an unquoted header and delimiter byte `delim`, after the
`key.strip()` of `CsvReader.read` (source line 329): the first
delimiter-free run of the first line, stripped. -/
def firstHeaderName (delim : Nat) (txt : List Nat) : List Nat :=
  stripBytes ((firstLineBytes txt).takeWhile (fun b => b != delim))

/-- Whether `l` starts with the three BOM bytes. -/
def startsWithBom (l : List Nat) : Bool :=
  l.take 3 == bomBytes

/-- Whether the three BOM bytes occur contiguously anywhere in `l` ("the
header name contains the BOM bytes"). -/
def containsBom : List Nat → Bool
  | [] => false
  | b :: rest => startsWithBom (b :: rest) || containsBom rest

/-! ### CsvReader: dialect detection and the run entry -/

/-- A CSV dialect as far as this model needs it: the sniffed delimiter. -/
structure Dialect where
  delimiter : Char
deriving DecidableEq, Repr

/-- `text_fp.readline()` on the file's text: the first line including its
trailing newline (the whole text if it has no newline). -/
def readline1 : List Char → List Char
  | [] => []
  | c :: rest => if c = '\n' then ['\n'] else c :: readline1 rest

/-- `CsvReader.get_dialect` (source lines 297--307): feed the first line of
the file to the sniffer.  `sniff` models `csv.Sniffer().sniff`, with `none`
for the `csv.Error` it raises when it cannot determine a dialect. -/
def get_dialect (sniff : List Char → Option Dialect) (content : List Char) :
    Option Dialect :=
  sniff (readline1 content)

/-- The lines of a text, split on newline characters (separators dropped). -/
def splitLines : List Char → List (List Char)
  | [] => [[]]
  | c :: rest =>
    let ls := splitLines rest
    if c = '\n' then [] :: ls
    else
      match ls with
      | [] => [[c]]
      | l :: ls' => (c :: l) :: ls'

/-- Modelled from the spec: "the first non-empty line of the file", the
line the spec says the sniffer is fed.  (The source feeds `readline()`, the
first line, to the sniffer; this definition exists to compare the spec's
words against the source.) -/
def firstNonEmptyLine (content : List Char) : List Char :=
  ((splitLines content).find? (fun l => l ≠ [])).getD []

/-- Modelled from the spec: dialect detection as the spec describes it,
sniffing the first non-empty line. -/
def get_dialect_spec (sniff : List Char → Option Dialect) (content : List Char) :
    Option Dialect :=
  sniff (firstNonEmptyLine content)

/-- The whole run as entered from `main`: `CsvReader.read` materialises the
rows (source line 117), during which `get_dialect` runs first (source lines
316--320) and a sniffing failure is `Log.fatal`; otherwise the parsed rows
(`parse dialect content`, the external `csv.DictReader` plus the
normalisation of `read`) are handed to `do_import`. -/
inductive RunResult
  | fatalDialect
  | imported (r : ImportResult)
deriving DecidableEq, Repr

/-- Exit status of the whole run: a dialect-detection failure is
`Log.fatal` (exit 1); otherwise the status of `do_import`. -/
def RunResult.exitCode : RunResult → Nat
  | .fatalDialect => 1
  | .imported r => r.exitCode

/-- The run: sniff the dialect from the first line, abort fatally if the
sniffer cannot determine one, else parse the rows with the sniffed dialect
and run `do_import` on them. -/
def runImport (sniff : List Char → Option Dialect)
    (parse : Dialect → List Char → List Row)
    (action : Action) (mod : UdmModule) (exec : Row → RowOutcome)
    (content : List Char) : RunResult :=
  match get_dialect sniff content with
  | none => .fatalDialect
  | some dialect => .imported (do_import action mod exec (parse dialect content))

/-! ### CsvReader: row normalisation -/

/-- Python ASCII whitespace as stripped by `str.strip` (the characters in
the model's inputs; `strip` also removes some non-ASCII whitespace, which
none of the claims involve). -/
def isPySpace (c : Char) : Bool :=
  c == ' ' || c == '\t' || c == '\n' || c == '\r' || c == '\x0b' || c == '\x0c'

/-- `str.strip()` on a character list: leading and trailing whitespace
removed. -/
def stripChars (l : List Char) : List Char :=
  ((l.dropWhile isPySpace).reverse.dropWhile isPySpace).reverse

/-- `str.strip()` on a string. -/
def pyStrip (s : String) : String :=
  ⟨stripChars s.data⟩

/-- The pairing `csv.DictReader` performs between the header's fieldnames
and one raw record's cells: each fieldname gets its cell, and a fieldname
beyond the record's length gets the `restval`, which defaults to `None`
(modelled as `none`).  Surplus cells go under the `None` key, which the
claims do not touch and the model drops. -/
def pairCells : List String → List String → List (String × Option String)
  | [], _ => []
  | f :: fs, [] => (f, none) :: pairCells fs []
  | f :: fs, c :: cs => (f, some c) :: pairCells fs cs

/-- The dict comprehension of `CsvReader.read` (source lines 328--331)
applied to one `DictReader` record: `key.strip()` maps to
`(value or "").strip()`, a `None` value (missing cell) becoming the empty
string. -/
def csvRow (fieldnames cells : List String) : Row :=
  (pairCells fieldnames cells).map (fun kv => (pyStrip kv.1, pyStrip (kv.2.getD "")))

/-- A concrete sniffer instance, matching `csv.Sniffer().sniff` on the
samples used below: it determines the comma delimiter exactly when the
sample contains a comma, and raises (`none`) otherwise — in particular it
fails on a bare newline, as the real sniffer does. -/
def sniffComma (sample : List Char) : Option Dialect :=
  if sample.contains ',' then some ⟨','⟩ else none

/-! ## Helper lemmas -/

theorem countErrors_nil (exec : Row → RowOutcome) : countErrors exec [] = 0 := rfl

theorem countErrors_cons (exec : Row → RowOutcome) (row : Row) (rest : List Row) :
    countErrors exec (row :: rest) =
      (if (exec row).isRecoverable then 1 else 0) + countErrors exec rest := by
  simp only [countErrors, List.filter_cons]
  split <;> simp [Nat.add_comm]

/-- The row loop without a fatal outcome: it runs to the end and adds one
per recoverable failure to the error accumulator. -/
theorem processRows_finished (exec : Row → RowOutcome) :
    ∀ (rows : List Row) (attempted errors : Nat),
      (∀ r ∈ rows, exec r ≠ .unknownProperty) →
      processRows exec rows attempted errors =
        .finished (errors + countErrors exec rows) := by
  intro rows
  induction rows with
  | nil => intro attempted errors _; simp [processRows, countErrors_nil]
  | cons row rest ih =>
    intro attempted errors h
    have hrow : exec row ≠ .unknownProperty := h row (List.mem_cons_self _ _)
    have hrest : ∀ r ∈ rest, exec r ≠ .unknownProperty :=
      fun r hr => h r (List.mem_cons_of_mem _ hr)
    cases hx : exec row with
    | ok dn =>
      simp [processRows, hx, ih _ _ hrest, countErrors_cons, RowOutcome.isRecoverable]
    | createError =>
      simp [processRows, hx, ih _ _ hrest, countErrors_cons, RowOutcome.isRecoverable]
      omega
    | modifyError =>
      simp [processRows, hx, ih _ _ hrest, countErrors_cons, RowOutcome.isRecoverable]
      omega
    | noObject =>
      simp [processRows, hx, ih _ _ hrest, countErrors_cons, RowOutcome.isRecoverable]
      omega
    | unknownProperty => exact absurd hx hrow

/-- The row loop hitting an `UnknownProperty` on row `bad` after a prefix
`pre` of non-fatal rows: it aborts right there, whatever `rest` holds. -/
theorem processRows_fatal_at (exec : Row → RowOutcome) (bad : Row)
    (hbad : exec bad = .unknownProperty) :
    ∀ (pre rest : List Row) (attempted errors : Nat),
      (∀ r ∈ pre, exec r ≠ .unknownProperty) →
      processRows exec (pre ++ bad :: rest) attempted errors =
        .fatal (attempted + pre.length + 1) (errors + countErrors exec pre) := by
  intro pre
  induction pre with
  | nil =>
    intro rest attempted errors _
    simp [processRows, hbad, countErrors_nil]
  | cons row pre' ih =>
    intro rest attempted errors h
    have hrow : exec row ≠ .unknownProperty := h row (List.mem_cons_self _ _)
    have hpre' : ∀ r ∈ pre', exec r ≠ .unknownProperty :=
      fun r hr => h r (List.mem_cons_of_mem _ hr)
    cases hx : exec row with
    | ok dn =>
      simp [processRows, hx, ih _ _ _ hpre', countErrors_cons, RowOutcome.isRecoverable]
      omega
    | createError =>
      simp [processRows, hx, ih _ _ _ hpre', countErrors_cons, RowOutcome.isRecoverable]
      omega
    | modifyError =>
      simp [processRows, hx, ih _ _ _ hpre', countErrors_cons, RowOutcome.isRecoverable]
      omega
    | noObject =>
      simp [processRows, hx, ih _ _ _ hpre', countErrors_cons, RowOutcome.isRecoverable]
      omega
    | unknownProperty => exact absurd hx hrow

/-! ## Claims -/

/-- C1: over a well-formed row set (nonempty, preconditions pass) on which
no fatal error occurs, the run completes with the summary reporting
`N - e` succeeded and `e` errors, where `e` is the number of per-row
failures; the exit status is 0 when `e = 0` (with the summary reporting all
`N` rows processed and 0 errors) and 1 when at least one per-row error
occurred. -/
theorem C1_summary_and_exit_status (action : Action) (mod : UdmModule)
    (exec : Row → RowOutcome) (rows : List Row)
    (hne : rows ≠ [])
    (hpre : check_preconditions action mod (header rows) = none)
    (hnf : ∀ r ∈ rows, exec r ≠ .unknownProperty) :
    do_import action mod exec rows =
      .completed (rows.length - countErrors exec rows) (countErrors exec rows) ∧
    (countErrors exec rows = 0 →
      do_import action mod exec rows = .completed rows.length 0 ∧
      (do_import action mod exec rows).exitCode = 0) ∧
    (countErrors exec rows ≠ 0 →
      (do_import action mod exec rows).exitCode = 1) := by
  have hloop := processRows_finished exec rows 0 0 hnf
  simp only [Nat.zero_add] at hloop
  have hdo : do_import action mod exec rows =
      .completed (rows.length - countErrors exec rows) (countErrors exec rows) := by
    simp [do_import, hne, hpre, hloop]
  refine ⟨hdo, fun h0 => ?_, fun hpos => ?_⟩
  · rw [hdo, h0]
    simp [ImportResult.exitCode]
  · rw [hdo]
    simp [ImportResult.exitCode, hpos]

theorem C1_witness :
    (([[("username", "alice")], [("username", "bob")]] : List Row) ≠ [] ∧
      check_preconditions .create ⟨"username", some ["username"]⟩
        (header [[("username", "alice")], [("username", "bob")]]) = none ∧
      ∀ r ∈ ([[("username", "alice")], [("username", "bob")]] : List Row),
        (fun _ => RowOutcome.ok "uid=x") r ≠ .unknownProperty) ∧
    do_import .create ⟨"username", some ["username"]⟩ (fun _ => .ok "uid=x")
        [[("username", "alice")], [("username", "bob")]] =
      .completed 2 0 ∧
    (do_import .create ⟨"username", some ["username"]⟩ (fun _ => .ok "uid=x")
        [[("username", "alice")], [("username", "bob")]]).exitCode = 0 :=
  ⟨⟨by decide, by decide, by decide⟩,
    ((C1_summary_and_exit_status .create ⟨"username", some ["username"]⟩
      (fun _ => .ok "uid=x") [[("username", "alice")], [("username", "bob")]]
      (by decide) (by decide) (by decide)).2.1 (by decide))⟩

/-- C2: a row failing with a creation conflict, modification conflict or
object-not-found error increments the error counter and the loop goes on to
the next row; a row failing with an unknown-property error aborts the run
right there with exit status 1, the rows after it never being executed (the
result does not depend on `rest`). -/
theorem C2_recoverable_vs_fatal (action : Action) (mod : UdmModule)
    (exec : Row → RowOutcome) (pre rest : List Row) (bad : Row)
    (hpre : ∀ r ∈ pre, exec r ≠ .unknownProperty)
    (hbad : exec bad = .unknownProperty)
    (hchk : check_preconditions action mod (header (pre ++ bad :: rest)) = none) :
    (∀ (row : Row) (rest' : List Row) (attempted errors : Nat),
      (exec row).isRecoverable = true →
      processRows exec (row :: rest') attempted errors =
        processRows exec rest' (attempted + 1) (errors + 1)) ∧
    do_import action mod exec (pre ++ bad :: rest) =
      .fatalRow (pre.length + 1) (countErrors exec pre) ∧
    (do_import action mod exec (pre ++ bad :: rest)).exitCode = 1 := by
  have hne : pre ++ bad :: rest ≠ [] := by simp
  have hloop := processRows_fatal_at exec bad hbad pre rest 0 0 hpre
  simp only [Nat.zero_add] at hloop
  refine ⟨?_, ?_, ?_⟩
  · intro row rest' attempted errors hrec
    cases hx : exec row with
    | ok dn => rw [hx] at hrec; simp [RowOutcome.isRecoverable] at hrec
    | createError => simp [processRows, hx]
    | modifyError => simp [processRows, hx]
    | noObject => simp [processRows, hx]
    | unknownProperty => rw [hx] at hrec; simp [RowOutcome.isRecoverable] at hrec
  · simp [do_import, hne, hchk, hloop]
  · simp [do_import, hne, hchk, hloop, ImportResult.exitCode]

theorem C2_witness :
    ((∀ r ∈ ([[("username", "a")]] : List Row),
        (fun r => if rowLookup r "username" = some "bad" then RowOutcome.unknownProperty
          else RowOutcome.noObject) r ≠ .unknownProperty) ∧
      (fun r => if rowLookup r "username" = some "bad" then RowOutcome.unknownProperty
        else RowOutcome.noObject) [("username", "bad")] = .unknownProperty ∧
      check_preconditions .remove ⟨"username", some ["username"]⟩
        (header ([[("username", "a")]] ++ [("username", "bad")] ::
          [[("username", "c")]])) = none) ∧
    do_import .remove ⟨"username", some ["username"]⟩
        (fun r => if rowLookup r "username" = some "bad" then RowOutcome.unknownProperty
          else RowOutcome.noObject)
        ([[("username", "a")]] ++ [("username", "bad")] :: [[("username", "c")]]) =
      .fatalRow 2 1 :=
  ⟨⟨by decide, by decide, by decide⟩, by
    have h := (C2_recoverable_vs_fatal .remove ⟨"username", some ["username"]⟩
      (fun r => if rowLookup r "username" = some "bad" then RowOutcome.unknownProperty
        else RowOutcome.noObject)
      [[("username", "a")]] [[("username", "c")]] [("username", "bad")]
      (by decide) (by decide) (by decide)).2.1
    simpa using h⟩

/-- C3: with action `create` and a `dn` column in the first row's header,
the run aborts with the invalid-column precondition failure (exit status 1),
whatever the module, the executor and the rest of the rows are — in
particular before any row is executed. -/
theorem C3_create_dn_aborts (mod : UdmModule) (exec : Row → RowOutcome)
    (rows : List Row) (hne : rows ≠ []) (hdn : "dn" ∈ header rows) :
    do_import .create mod exec rows = .fatalPrecondition .invalidColumn ∧
    (do_import .create mod exec rows).exitCode = 1 := by
  have hchk : check_preconditions .create mod (header rows) = some .invalidColumn := by
    simp [check_preconditions, hdn]
  exact ⟨by simp [do_import, hne, hchk],
    by simp [do_import, hne, hchk, ImportResult.exitCode]⟩

theorem C3_witness :
    (([[("dn", "uid=x"), ("description", "d")]] : List Row) ≠ [] ∧
      "dn" ∈ header [[("dn", "uid=x"), ("description", "d")]]) ∧
    do_import .create ⟨"username", some []⟩ (fun _ => .ok "uid=x")
        [[("dn", "uid=x"), ("description", "d")]] =
      .fatalPrecondition .invalidColumn :=
  ⟨⟨by decide, by decide⟩,
    (C3_create_dn_aborts ⟨"username", some []⟩ (fun _ => .ok "uid=x")
      [[("dn", "uid=x"), ("description", "d")]] (by decide) (by decide)).1⟩

/-- Inversion for `check_preconditions`: the missing-identifier failure
only arises when the header contains neither the identifying property nor
`dn`. -/
theorem check_preconditions_missingIdentifier_inv (action : Action)
    (mod : UdmModule) (hdr : List String) (p : String)
    (h : check_preconditions action mod hdr = some (.missingIdentifier p)) :
    mod.identifying_property ∉ hdr ∧ "dn" ∉ hdr := by
  unfold check_preconditions at h
  split at h
  · simp at h
  · split at h
    · next hcond => exact hcond.2
    · split at h
      · cases hnp : mod.new_props with
        | none => rw [hnp] at h; simp at h
        | some ps =>
          rw [hnp] at h
          dsimp only at h
          split at h
          · simp at h
          · simp at h
      · simp at h

/-- C4: with action `modify` or `remove`, a first-row header containing
neither `dn` nor the identifying-property column aborts the run with the
missing-identifier precondition failure (exit status 1, before any row is
executed); when at least one of the two columns is present, the
missing-identifier check never fires. -/
theorem C4_identifier_required (action : Action) (mod : UdmModule)
    (exec : Row → RowOutcome) (rows : List Row) (hne : rows ≠ [])
    (hact : action = .modify ∨ action = .remove) :
    (mod.identifying_property ∉ header rows → "dn" ∉ header rows →
      do_import action mod exec rows =
        .fatalPrecondition (.missingIdentifier mod.identifying_property) ∧
      (do_import action mod exec rows).exitCode = 1) ∧
    (mod.identifying_property ∈ header rows ∨ "dn" ∈ header rows →
      ∀ p, check_preconditions action mod (header rows) ≠ some (.missingIdentifier p)) := by
  constructor
  · intro hid hdn
    have hchk : check_preconditions action mod (header rows) =
        some (.missingIdentifier mod.identifying_property) := by
      rcases hact with h | h <;> subst h <;> simp [check_preconditions, hid, hdn]
    exact ⟨by simp [do_import, hne, hchk],
      by simp [do_import, hne, hchk, ImportResult.exitCode]⟩
  · intro hone p hcontra
    obtain ⟨hB, hC⟩ :=
      check_preconditions_missingIdentifier_inv action mod (header rows) p hcontra
    rcases hone with h | h
    · exact hB h
    · exact hC h

theorem C4_witness :
    (([[("uid", "x")]] : List Row) ≠ [] ∧
      (Action.modify = .modify ∨ Action.modify = .remove) ∧
      "username" ∉ header [[("uid", "x")]] ∧ "dn" ∉ header [[("uid", "x")]]) ∧
    do_import .modify ⟨"username", some ["username", "uid"]⟩ (fun _ => .ok "uid=x")
        [[("uid", "x")]] =
      .fatalPrecondition (.missingIdentifier "username") :=
  ⟨⟨by decide, Or.inl rfl, by decide, by decide⟩,
    ((C4_identifier_required .modify ⟨"username", some ["username", "uid"]⟩
      (fun _ => .ok "uid=x") [[("uid", "x")]] (by decide) (Or.inl rfl)).1
      (by decide) (by decide)).1⟩

/-- C5: for a create or modify run that passes the earlier header checks,
a non-empty collection of header columns outside the structural set and the
introspected property set aborts the run with a precondition failure that
names exactly those columns (exit status 1, before any row is executed);
when introspection fails with `NoSuperordinate` (`new_props = none`), the
unknown-column check is skipped and the run proceeds to the row loop. -/
theorem C5_unknown_columns_check (action : Action) (mod : UdmModule)
    (exec : Row → RowOutcome) (rows : List Row) (hne : rows ≠ [])
    (hact : action = .create ∨ action = .modify)
    (h1 : ¬ (action = .create ∧ "dn" ∈ header rows))
    (h2 : ¬ ((action = .modify ∨ action = .remove) ∧
      mod.identifying_property ∉ header rows ∧ "dn" ∉ header rows)) :
    (∀ ps, mod.new_props = some ps →
      (header rows).filter (fun key => key ∉ obj_non_props ++ ps) ≠ [] →
      do_import action mod exec rows =
        .fatalPrecondition
          (.unknownColumns ((header rows).filter (fun key => key ∉ obj_non_props ++ ps))) ∧
      (do_import action mod exec rows).exitCode = 1) ∧
    (mod.new_props = none →
      check_preconditions action mod (header rows) = none ∧
      do_import action mod exec rows =
        match processRows exec rows 0 0 with
        | .fatal attempted errors => .fatalRow attempted errors
        | .finished errors => .completed (rows.length - errors) errors) := by
  constructor
  · intro ps hnp hunk
    have hchk : check_preconditions action mod (header rows) =
        some (.unknownColumns
          ((header rows).filter (fun key => key ∉ obj_non_props ++ ps))) := by
      simp only [check_preconditions]
      rw [if_neg h1, if_neg h2, if_pos hact, hnp]
      dsimp only
      rw [if_neg hunk]
    exact ⟨by simp [do_import, hne, hchk],
      by simp [do_import, hne, hchk, ImportResult.exitCode]⟩
  · intro hnp
    have hchk : check_preconditions action mod (header rows) = none := by
      simp only [check_preconditions]
      rw [if_neg h1, if_neg h2, if_pos hact, hnp]
    refine ⟨hchk, ?_⟩
    simp [do_import, hne, hchk]

theorem C5_witness :
    (([[("username", "a"), ("foo", "b")]] : List Row) ≠ [] ∧
      (Action.create = .create ∨ Action.create = .modify) ∧
      ¬ (Action.create = .create ∧ "dn" ∈ header [[("username", "a"), ("foo", "b")]]) ∧
      (header [[("username", "a"), ("foo", "b")]]).filter
        (fun key => key ∉ obj_non_props ++ ["username"]) ≠ []) ∧
    do_import .create ⟨"username", some ["username"]⟩ (fun _ => .ok "uid=x")
        [[("username", "a"), ("foo", "b")]] =
      .fatalPrecondition (.unknownColumns ["foo"]) := by
  refine ⟨⟨by decide, Or.inl rfl, by decide, by decide⟩, ?_⟩
  have h := ((C5_unknown_columns_check .create ⟨"username", some ["username"]⟩
    (fun _ => .ok "uid=x") [[("username", "a"), ("foo", "b")]]
    (by decide) (Or.inl rfl) (by decide) (by decide)).1
    ["username"] rfl (by decide)).1
  simpa using h

/-- A successfully resolved object came out of the directory. -/
theorem get_obj_mem (d : Directory) (idProp : String) (row : Row)
    (obj : UdmObject) (h : get_obj d idProp row = .ok obj) : obj ∈ d := by
  unfold get_obj at h
  split at h
  · split at h
    · next hfind =>
      cases h
      exact List.mem_of_find?_eq_some hfind
    · cases h
  · split at h
    · cases h
    · split at h
      · next hfind =>
        cases h
        exact List.mem_of_find?_eq_some hfind
      · cases h

/-- C6: whenever the remove executor succeeds on a row, it has resolved an
object that was present in the directory, returned exactly the identifier
that object had before the deletion, and left a directory in which no
object carries that identifier any more (all other objects surviving). -/
theorem C6_remove_resolves_deletes_returns_dn (d : Directory) (idProp : String)
    (row : Row) (dn : String) (d' : Directory)
    (h : remove d idProp row = .ok (dn, d')) :
    ∃ obj, get_obj d idProp row = .ok obj ∧ obj ∈ d ∧ dn = obj.dn ∧
      d' = dirDelete d obj.dn ∧ (∀ o ∈ d', o.dn ≠ dn) ∧ dirGet d' dn = none := by
  unfold remove at h
  cases hg : get_obj d idProp row with
  | error e => rw [hg] at h; cases h
  | ok obj =>
    rw [hg] at h
    dsimp only at h
    rw [Except.ok.injEq, Prod.mk.injEq] at h
    obtain ⟨h1, h2⟩ := h
    subst h1
    subst h2
    refine ⟨obj, rfl, get_obj_mem d idProp row obj hg, rfl, rfl, ?_, ?_⟩
    · intro o ho hoe
      unfold dirDelete at ho
      rw [List.mem_filter] at ho
      have : o.dn ≠ obj.dn := by simpa using ho.2
      exact this hoe
    · unfold dirGet dirDelete
      rw [List.find?_eq_none]
      intro o ho
      rw [List.mem_filter] at ho
      simpa using ho.2

theorem C6_witness :
    remove [⟨"uid=alice", [("username", "alice")]⟩] "username" [("dn", "uid=alice")] =
      .ok ("uid=alice", []) ∧
    (∃ obj, get_obj [⟨"uid=alice", [("username", "alice")]⟩] "username"
        [("dn", "uid=alice")] = .ok obj ∧
      obj ∈ [(⟨"uid=alice", [("username", "alice")]⟩ : UdmObject)] ∧
      "uid=alice" = obj.dn ∧
      ([] : Directory) = dirDelete [⟨"uid=alice", [("username", "alice")]⟩] obj.dn ∧
      (∀ o ∈ ([] : Directory), o.dn ≠ "uid=alice") ∧
      dirGet ([] : Directory) "uid=alice" = none) :=
  ⟨rfl,
    C6_remove_resolves_deletes_returns_dn [⟨"uid=alice", [("username", "alice")]⟩]
      "username" [("dn", "uid=alice")] "uid=alice" [] rfl⟩

/-- C10: the presence of the `dn` key in a row decides the resolution path
of `get_obj`: a present `dn` key resolves by locator — whatever the value,
including the empty string, and even when the locator lookup fails while an
identifying-property lookup would have succeeded — and the
identifying-property path is taken only when the `dn` key is absent. -/
theorem C10_dn_key_decides_resolution (d : Directory) (idProp : String) (row : Row) :
    (∀ v, rowLookup row "dn" = some v →
      get_obj d idProp row =
        match dirGet d v with
        | some o => .ok o
        | none => .error .noObject) ∧
    (∀ v, rowLookup row "dn" = some v → dirGet d v = none →
      get_obj d idProp row = .error .noObject) ∧
    (rowLookup row "dn" = none →
      get_obj d idProp row =
        match rowLookup row idProp with
        | none => .error .keyError
        | some v =>
          match dirGetById d idProp v with
          | some o => .ok o
          | none => .error .noObject) := by
  refine ⟨?_, ?_, ?_⟩
  · intro v hv
    unfold get_obj
    rw [hv]
  · intro v hv hmiss
    unfold get_obj
    rw [hv]
    dsimp only
    rw [hmiss]
  · intro hnone
    unfold get_obj
    rw [hnone]

theorem C10_witness :
    rowLookup [("dn", ""), ("username", "alice")] "dn" = some "" ∧
    dirGetById [⟨"uid=alice", [("username", "alice")]⟩] "username" "alice" =
      some ⟨"uid=alice", [("username", "alice")]⟩ ∧
    dirGet [⟨"uid=alice", [("username", "alice")]⟩] "" = none ∧
    get_obj [⟨"uid=alice", [("username", "alice")]⟩] "username"
      [("dn", ""), ("username", "alice")] = .error .noObject :=
  ⟨by decide, by decide, by decide,
    (C10_dn_key_decides_resolution [⟨"uid=alice", [("username", "alice")]⟩]
      "username" [("dn", ""), ("username", "alice")]).2.1 "" (by decide) (by decide)⟩

/-- The `DictReader` pairing keeps the fieldnames, in order. -/
theorem pairCells_map_fst (fs : List String) :
    ∀ cs, (pairCells fs cs).map Prod.fst = fs := by
  induction fs with
  | nil => intro cs; cases cs <;> rfl
  | cons f fs ih => intro cs; cases cs <;> simp [pairCells, ih]

/-- Position `i` of the `DictReader` pairing: the `i`-th fieldname together
with the `i`-th cell when the record has one, `none` when it is short. -/
theorem pairCells_get? (fs : List String) :
    ∀ (cs : List String) (i : Nat),
      (pairCells fs cs).get? i = (fs.get? i).map (fun f => (f, cs.get? i)) := by
  induction fs with
  | nil => intro cs i; cases cs <;> simp [pairCells]
  | cons f fs ih =>
    intro cs i
    cases cs with
    | nil =>
      cases i with
      | zero => simp [pairCells]
      | succ n => simpa [pairCells] using ih [] n
    | cons c cs' =>
      cases i with
      | zero => simp [pairCells]
      | succ n => simpa [pairCells] using ih cs' n

/-- Stripping an all-whitespace character list leaves nothing. -/
theorem stripChars_all_space (l : List Char) (h : ∀ c ∈ l, isPySpace c) :
    stripChars l = [] := by
  unfold stripChars
  rw [List.dropWhile_eq_nil_iff.mpr h]
  rfl

/-- C8: every key of a normalised row is the corresponding header name
stripped of surrounding whitespace; position `i` holds the stripped `i`-th
header name mapped to the stripped `i`-th cell, or to the empty string when
the record is too short (the key is present either way); and stripping a
whitespace-only cell yields the empty string. -/
theorem C8_row_keys_values_stripped (fieldnames cells : List String) (i : Nat)
    (hi : i < fieldnames.length) :
    (csvRow fieldnames cells).map Prod.fst = fieldnames.map pyStrip ∧
    (csvRow fieldnames cells).get? i =
      some (pyStrip (fieldnames.get ⟨i, hi⟩),
        match cells.get? i with
        | some c => pyStrip c
        | none => "") ∧
    (∀ s : String, (∀ c ∈ s.data, isPySpace c) → pyStrip s = "") := by
  refine ⟨?_, ?_, ?_⟩
  · unfold csvRow
    rw [List.map_map]
    conv_rhs => rw [← pairCells_map_fst fieldnames cells, List.map_map]
    rfl
  · unfold csvRow
    cases hc : cells.get? i with
    | none =>
      rw [List.get?_map, pairCells_get?, List.get?_eq_get hi, hc]
      rfl
    | some c =>
      rw [List.get?_map, pairCells_get?, List.get?_eq_get hi, hc]
      rfl
  · intro s hs
    unfold pyStrip
    rw [stripChars_all_space s.data hs]

theorem C8_witness :
    (1 < ([" a ", "b"] : List String).length ∧
      ∀ c ∈ ("  " : String).data, isPySpace c) ∧
    (csvRow [" a ", "b"] ["  "]).map Prod.fst = ["a", "b"] ∧
    (csvRow [" a ", "b"] ["  "]).get? 1 = some ("b", "") ∧
    pyStrip "  " = "" := by
  have h := C8_row_keys_values_stripped [" a ", "b"] ["  "] 1 (by decide)
  refine ⟨⟨by decide, by decide⟩, ?_, ?_, h.2.2 "  " (by decide)⟩
  · rw [h.1]
    decide
  · rw [h.2.1]
    decide

/-- C7 counterexample: a file whose bytes start with two copies of the
UTF-8 byte-order-mark and whose heuristic report is plain `utf-8`.  The
encoding is overridden to `utf-8-sig` as the claim says, but that decoder
consumes only the leading BOM, so the first header name still contains the
BOM bytes — refuting the claim's unconditional "does not contain the BOM
bytes". -/
theorem C7_counterexample :
    startsWithBom (bomBytes ++ bomBytes ++ [0x61, 0x2c, 0x62, 0x0a, 0x31, 0x2c, 0x32, 0x0a]) =
      true ∧
    get_encoding "utf-8"
      (bomBytes ++ bomBytes ++ [0x61, 0x2c, 0x62, 0x0a, 0x31, 0x2c, 0x32, 0x0a]) =
      "utf-8-sig" ∧
    containsBom (firstHeaderName 0x2c
      (decodeStream
        (get_encoding "utf-8"
          (bomBytes ++ bomBytes ++ [0x61, 0x2c, 0x62, 0x0a, 0x31, 0x2c, 0x32, 0x0a]))
        (bomBytes ++ bomBytes ++ [0x61, 0x2c, 0x62, 0x0a, 0x31, 0x2c, 0x32, 0x0a]))) =
      true := by
  decide

/-- C7 (amended): when the heuristic reports plain `utf-8` and the bytes
start with the BOM, the encoding is overridden to `utf-8-sig`; the decoded
stream is then exactly the file's bytes with the leading BOM removed, so
the first header name is BOM-free whenever the remaining bytes' first
header field is (which a second, in-data BOM can defeat). -/
theorem C7_bom_override (detected : String) (txt : List Nat) (delim : Nat)
    (hdet : detected = "utf-8") (hbom : startsWithBom txt = true) :
    get_encoding detected txt = "utf-8-sig" ∧
    decodeStream (get_encoding detected txt) txt = txt.drop 3 ∧
    (containsBom (firstHeaderName delim (txt.drop 3)) = false →
      containsBom (firstHeaderName delim
        (decodeStream (get_encoding detected txt) txt)) = false) := by
  have htake : txt.take 3 = bomBytes := by simpa [startsWithBom] using hbom
  have henc : get_encoding detected txt = "utf-8-sig" := by
    simp [get_encoding, hdet, htake]
  have hdec : decodeStream (get_encoding detected txt) txt = txt.drop 3 := by
    rw [henc]
    simp [decodeStream, htake]
  exact ⟨henc, hdec, fun hno => by rwa [hdec]⟩

theorem C7_witness :
    (startsWithBom (bomBytes ++ [0x61, 0x2c, 0x62, 0x0a]) = true ∧
      containsBom (firstHeaderName 0x2c ((bomBytes ++ [0x61, 0x2c, 0x62, 0x0a]).drop 3)) =
        false) ∧
    get_encoding "utf-8" (bomBytes ++ [0x61, 0x2c, 0x62, 0x0a]) = "utf-8-sig" ∧
    decodeStream (get_encoding "utf-8" (bomBytes ++ [0x61, 0x2c, 0x62, 0x0a]))
      (bomBytes ++ [0x61, 0x2c, 0x62, 0x0a]) =
      (bomBytes ++ [0x61, 0x2c, 0x62, 0x0a]).drop 3 ∧
    containsBom (firstHeaderName 0x2c
      (decodeStream (get_encoding "utf-8" (bomBytes ++ [0x61, 0x2c, 0x62, 0x0a]))
        (bomBytes ++ [0x61, 0x2c, 0x62, 0x0a]))) = false := by
  refine ⟨⟨by decide, by decide⟩, ?_⟩
  have h := C7_bom_override "utf-8" (bomBytes ++ [0x61, 0x2c, 0x62, 0x0a]) 0x2c rfl
    (by decide)
  exact ⟨h.1, h.2.1, h.2.2 (by decide)⟩

/-- C9 counterexample: a file that starts with a blank line.  The source
feeds `readline()` — the first line, here just the newline — to the
sniffer, which fails on it; sniffing the first non-empty line (the spec's
words) would have succeeded.  The concrete sniffer behaves like
`csv.Sniffer` on both samples. -/
theorem C9_counterexample :
    get_dialect sniffComma ['\n', 'a', ',', 'b', '\n'] = none ∧
    get_dialect_spec sniffComma ['\n', 'a', ',', 'b', '\n'] = some ⟨','⟩ ∧
    get_dialect sniffComma ['\n', 'a', ',', 'b', '\n'] ≠
      sniffComma (firstNonEmptyLine ['\n', 'a', ',', 'b', '\n']) := by
  decide

/-- C9 (amended): the dialect is determined by sniffing the first line of
the file (`readline()`, not the first non-empty line); when the sniffer
cannot determine a dialect the run aborts with exit status 1 before any row
is parsed (the outcome does not depend on the parser), and when it can, the
rows are parsed with exactly the sniffed dialect. -/
theorem C9_dialect_from_first_line (sniff : List Char → Option Dialect)
    (parse parseOther : Dialect → List Char → List Row) (action : Action)
    (mod : UdmModule) (exec : Row → RowOutcome) (content : List Char) :
    (sniff (readline1 content) = none →
      runImport sniff parse action mod exec content = .fatalDialect ∧
      runImport sniff parse action mod exec content =
        runImport sniff parseOther action mod exec content ∧
      (runImport sniff parse action mod exec content).exitCode = 1) ∧
    (∀ dl, sniff (readline1 content) = some dl →
      runImport sniff parse action mod exec content =
        .imported (do_import action mod exec (parse dl content))) := by
  constructor
  · intro hnone
    have h : get_dialect sniff content = none := hnone
    exact ⟨by simp [runImport, h], by simp [runImport, h],
      by simp [runImport, h, RunResult.exitCode]⟩
  · intro dl hdl
    have h : get_dialect sniff content = some dl := hdl
    simp [runImport, h]

theorem C9_witness :
    (fun _ => (none : Option Dialect)) (readline1 ['x']) = none ∧
    runImport (fun _ => none) (fun _ _ => []) .create ⟨"username", none⟩
      (fun _ => .ok "uid=x") ['x'] = .fatalDialect ∧
    (runImport (fun _ => none) (fun _ _ => []) .create ⟨"username", none⟩
      (fun _ => .ok "uid=x") ['x']).exitCode = 1 := by
  have h := (C9_dialect_from_first_line (fun _ => none) (fun _ _ => []) (fun _ _ => [])
    .create ⟨"username", none⟩ (fun _ => .ok "uid=x") ['x']).1 rfl
  exact ⟨rfl, h.1, h.2.2⟩

end UdmImportModel
